import Mathlib

/-!
Shallow embedding of the workflow scheduling core of the repository
(`server/prefect-worker/flows/workflow_flow_optimized.py` and
`server/prefect-worker/flows/workflow_flow.py`), together with proofs of the
specification's claims about it.

Python dictionaries are modelled as insertion-ordered association lists, and
arbitrary JSON-like payloads as the inductive type `Value`.  Exceptions raised
by node handlers are modelled with `Except String`.
-/

/-- JSON-like runtime value, the model of Python payloads. -/
inductive Value where
  | null : Value
  | bool (b : Bool) : Value
  | num (n : Int) : Value
  | str (s : String) : Value
  | arr (xs : List Value) : Value
  | obj (fields : List (String × Value)) : Value

/-- Python truthiness of a value (`bool(v)`). -/
def Value.truthy : Value → Bool
  | .null => false
  | .bool b => b
  | .num n => n != 0
  | .str s => s != ""
  | .arr xs => !xs.isEmpty
  | .obj fs => !fs.isEmpty

/-- Lookup `d.find?` on an association list: first binding of key `k`, if any. -/
def dictFind? (d : List (String × α)) (k : String) : Option α :=
  (d.find? (fun p => p.1 == k)).map (fun p => p.2)

/-- Python `d.get(k, default)`. -/
def dictGetD (d : List (String × α)) (k : String) (v₀ : α) : α :=
  (dictFind? d k).getD v₀

/-- Python `d[k] = v`: replace the binding in place if the key is present
(keeping insertion order), append otherwise. -/
def dictSet (d : List (String × α)) (k : String) (v : α) : List (String × α) :=
  if d.any (fun p => p.1 == k) then
    d.map (fun p => if p.1 == k then (k, v) else p)
  else
    d ++ [(k, v)]

/-- Python `d.update(kvs)`: set every binding of `kvs` in order. -/
def dictUpdate (d kvs : List (String × α)) : List (String × α) :=
  kvs.foldl (fun acc p => dictSet acc p.1 p.2) d

/-- Python `v.get(k)` on a `Value` that may be an object: `none` when the key is
absent or `v` is not an object. -/
def Value.get? (v : Value) (k : String) : Option Value :=
  match v with
  | .obj fs => dictFind? fs k
  | _ => none

/-- Python `v.get(k, default)` on a `Value`. -/
def Value.getD (v : Value) (k : String) (v₀ : Value) : Value :=
  (v.get? k).getD v₀

/-- Truthiness of `v.get(k)` (Python `if v.get(k):`, absent key falsy). -/
def Value.getTruthy (v : Value) (k : String) : Bool :=
  (v.getD k .null).truthy

/-- The `NodeSpec` record: one workflow node as stored in the workflow definition. -/
structure Node where
  id : String
  type : String
  label : Option String := none
deriving DecidableEq

/-- The `ConnectionSpec` record: one directed edge of the workflow graph. -/
structure Conn where
  fromNodeId : String
  toNodeId : String
  fromPort : Option String := none
  outputType : Option String := none
deriving DecidableEq

/-- The parents of `node_id`: `fromNodeId` of every connection pointing into
it, in connection declaration order (the list comprehension of
`analyze_workflow_dependencies`). -/
def parentsOf (connections : List Conn) (node_id : String) : List String :=
  (connections.filter (fun c => c.toNodeId == node_id)).map (fun c => c.fromNodeId)

/-- Source `analyze_workflow_dependencies(nodes, connections)`: builds
`{nodeId: [parent node ids]}` by one dictionary write per node, in node
order. -/
def analyze_workflow_dependencies (nodes : List Node) (connections : List Conn) :
    List (String × List String) :=
  nodes.foldl (fun deps node => dictSet deps node.id (parentsOf connections node.id)) []

/-- The node-id set `{node['id'] for node in nodes}` (membership and
duplicate-freeness are all the source uses of it). -/
def nodeIds (nodes : List Node) : List String :=
  (nodes.map Node.id).dedup

/-- The error message `get_execution_layers` raises on a stuck iteration. -/
def cycleMsg : String := "Circular dependency detected or error in workflow structure"

/-- One ready-set iteration of `get_execution_layers`: the nodes of
`remaining` whose every dependency is already in `processed`. -/
def readyLayer (deps : List (String × List String)) (processed remaining : List String) :
    List String :=
  remaining.filter (fun nid => (dictGetD deps nid []).all (fun d => processed.contains d))

/-- The `while remaining:` loop of `get_execution_layers`, with explicit fuel
(the loop removes at least one node per iteration, so fuel
`remaining.length` is never exhausted). -/
def layersAux (deps : List (String × List String)) :
    Nat → List String → List String → Except String (List (List String))
  | 0, _, remaining =>
    if remaining.isEmpty then .ok [] else .error cycleMsg
  | fuel + 1, processed, remaining =>
    if remaining.isEmpty then .ok []
    else
      let current := readyLayer deps processed remaining
      if current.isEmpty then .error cycleMsg
      else
        match layersAux deps fuel (processed ++ current)
            (remaining.filter (fun nid => !(current.contains nid))) with
        | .ok ls => .ok (current :: ls)
        | .error e => .error e

/-- Source `get_execution_layers(nodes, dependencies)`: Kahn-style batching of the
node-id set into execution layers; raises (models `ValueError`) when no node
of `remaining` is ready. -/
def get_execution_layers (nodes : List Node) (deps : List (String × List String)) :
    Except String (List (List String)) :=
  layersAux deps (nodeIds nodes).length [] (nodeIds nodes)

/-! ## Task dispatcher (`execute_node_task`) -/

/-- A node handler: invoked with the node and its input payload; a raised
exception is `.error` with the exception message. -/
def Handler : Type := Node → Value → Except String Value

/-- The handler registry (`NODE_HANDLERS.get`): `none` models a registry
miss. -/
def Registry : Type := String → Option Handler

/-- One `execution_logs` record as written by `log_node_execution` (the
fields the claims are about). -/
structure LogEntry where
  nodeId : String
  status : String
  error : Option String := none
deriving DecidableEq

/-- The message of the `ValueError` raised on a handler-registry miss. -/
def noHandlerMsg (node_type : String) : String :=
  "No handler found for node type: " ++ node_type

/-- The success dictionary `execute_node_task` returns. -/
def okResult (node_id : String) (output : Value) (duration : Int) : Value :=
  .obj [("success", .bool true), ("nodeId", .str node_id),
        ("output", output), ("duration", .num duration)]

/-- The failure dictionary `execute_node_task` returns from its `except`
block. -/
def failResult (node_id : String) (error : String) (duration : Int) : Value :=
  .obj [("success", .bool false), ("nodeId", .str node_id),
        ("error", .str error), ("duration", .num duration)]

/-- Source `execute_node_task(node, input_data, ...)`: looks the node type up in the
registry, raising on a miss, runs the handler, and catches every exception
into a `success=False` result.  Wall-clock elapsed time is abstracted as the
`duration` argument.  Returns the result dictionary together with the log
entries written, in order. -/
def execute_node_task (registry : Registry) (node : Node) (input_data : Value)
    (duration : Int) : Value × List LogEntry :=
  let running : LogEntry := ⟨node.id, "running", none⟩
  match registry node.type with
  | none =>
    (failResult node.id (noHandlerMsg node.type) duration,
      [running, ⟨node.id, "failed", some (noHandlerMsg node.type)⟩])
  | some handler =>
    match handler node input_data with
    | .error e =>
      (failResult node.id e duration, [running, ⟨node.id, "failed", some e⟩])
    | .ok result =>
      (okResult node.id result duration, [running, ⟨node.id, "completed", none⟩])

/-! ## Input merger (`merge_inputs`) -/

/-- The source's unwrapping of a parent's raw `output`: if it is a dictionary
with an `outputData` key, take that field, else the output itself.  This is
the reading of a result's `outputData` in the spec's sense. -/
def unwrapOutput (output : Value) : Value :=
  match output with
  | .obj fs => if fs.any (fun p => p.1 == "outputData") then dictGetD fs "outputData" (.obj []) else .obj fs
  | v => v

/-- Comparison `r['nodeId'] == nid` for a result dictionary (results always carry a
string `nodeId`). -/
def resultIsFrom (r : Value) (nid : String) : Bool :=
  match r.get? "nodeId" with
  | some (.str s) => s == nid
  | _ => false

/-- Find the producing parent's result for a connection:
`next((r for r in parent_results if r['nodeId'] == conn['fromNodeId']), None)`. -/
def findParentResult (parent_results : List Value) (conn : Conn) : Option Value :=
  parent_results.find? (fun r => resultIsFrom r conn.fromNodeId)

/-- The `for conn in incoming_connections:` body of the multi-input branch of
`merge_inputs`. -/
def mergeStep (parent_results : List Value) (merged : List (String × Value))
    (conn : Conn) : List (String × Value) :=
  match findParentResult parent_results conn with
  | none => merged
  | some r =>
    if r.getTruthy "success" then
      let output_data := unwrapOutput (r.getD "output" (.obj []))
      let output_type := conn.outputType.getD "default"
      if output_type == "A" then dictSet merged "inputA" output_data
      else if output_type == "B" then dictSet merged "inputB" output_data
      else
        match output_data with
        | .obj fs => dictUpdate merged fs
        | _ => merged
    else merged

/-- Source `merge_inputs(parent_results, connections, node_id)`. -/
def merge_inputs (parent_results : List Value) (connections : List Conn)
    (node_id : String) : Value :=
  let incoming := connections.filter (fun c => c.toNodeId == node_id)
  match incoming with
  | [] => .obj []
  | [conn] =>
    match findParentResult parent_results conn with
    | some r =>
      if r.getTruthy "success" then unwrapOutput (r.getD "output" (.obj []))
      else .obj []
    | none => .obj []
  | _ => .obj (incoming.foldl (mergeStep parent_results) [])

/-! ## Branch filter (`get_next_nodes`, legacy flow) -/

/-- The connection-selection step of `get_next_nodes`: outgoing connections
of `node_id`, filtered by the result's `conditionResult` when present. -/
def branchFilter (node_id : String) (result : Value) (connections : List Conn) :
    List Conn :=
  let outgoing := connections.filter (fun c => c.fromNodeId == node_id)
  match result.get? "conditionResult" with
  | none => outgoing
  | some condition_result =>
    outgoing.filter (fun conn =>
      let from_port := conn.fromPort.getD ""
      (condition_result.truthy && from_port == "true") ||
      (!condition_result.truthy && from_port == "false") ||
      (from_port != "true" && from_port != "false"))

/-- Source `get_next_nodes(node_id, nodes, connections, result)`: target nodes of the
selected outgoing connections. -/
def get_next_nodes (node_id : String) (nodes : List Node) (connections : List Conn)
    (result : Value) : List Node :=
  let outgoing := branchFilter node_id result connections
  let next_node_ids := outgoing.map (fun c => c.toNodeId)
  nodes.filter (fun n => next_node_ids.contains n.id)

/-- Dispatch decision of `execute_node` of the legacy recursive flow, restricted to its dispatch
decision: a registry miss is a silent pass-through (`success=True`, output =
the input), a registered handler runs normally. -/
def execute_node_dispatch (registry : Registry) (node : Node) (input_data : Value) :
    Except String Value :=
  match registry node.type with
  | none =>
    .ok (.obj [("success", .bool true),
               ("message", .str ("Node type '" ++ node.type ++ "' not implemented yet")),
               ("outputData", input_data)])
  | some handler => handler node input_data

/-! ## Run coordinator (`workflow_flow_optimized`) -/

/-- The terminal state of one run as recorded in `workflow_executions` plus
the in-memory result map. -/
structure RunOutcome where
  status : String
  error : Option String
  nodeResults : List (String × Value)

/-- Per-layer body of the coordinator: build the layer's task list (skipping
ids with no matching node), execute, then store each result keyed by node
id.  `durations` abstracts each task's measured wall-clock time. -/
def runLayer (registry : Registry) (durations : String → Int) (nodes : List Node)
    (connections : List Conn) (dependencies : List (String × List String))
    (inputs : Value) (layer_idx : Nat) (node_results : List (String × Value))
    (layer : List String) : List (String × Value) :=
  let layer_tasks := layer.filterMap (fun node_id =>
    (nodes.find? (fun n => n.id == node_id)).map (fun node =>
      let parent_node_ids := dictGetD dependencies node_id []
      let parent_results := parent_node_ids.filterMap (fun pid => dictFind? node_results pid)
      let input_data :=
        if !parent_node_ids.isEmpty && parent_results.isEmpty then
          (if layer_idx == 0 then inputs else .obj [])
        else merge_inputs parent_results connections node_id
      let input_data :=
        if layer_idx == 0 && !input_data.truthy then inputs else input_data
      (node_id, (execute_node_task registry node input_data (durations node_id)).1)))
  layer_tasks.foldl (fun acc p => dictSet acc p.1 p.2) node_results

/-- The failed-node aggregation after the last layer:
`[nid for nid, res in node_results.items() if not res.get('success')]`. -/
def failedNodes (node_results : List (String × Value)) : List String :=
  (node_results.filter (fun p => !(p.2.getTruthy "success"))).map (fun p => p.1)

/-- Source `workflow_flow_optimized(...)` as a function of the graph, the handler
registry, the measured durations and the run inputs: analyze dependencies,
plan layers (a planning error fails the run with no node executed), execute
layer by layer, then aggregate the final status. -/
def workflow_flow_optimized (registry : Registry) (durations : String → Int)
    (nodes : List Node) (connections : List Conn) (inputs : Value) : RunOutcome :=
  let dependencies := analyze_workflow_dependencies nodes connections
  match get_execution_layers nodes dependencies with
  | .error e => ⟨"failed", some e, []⟩
  | .ok layers =>
    let node_results := (layers.enum).foldl
      (fun acc p => runLayer registry durations nodes connections dependencies inputs p.1 acc p.2) []
    let failed_nodes := failedNodes node_results
    if failed_nodes.isEmpty then ⟨"completed", none, node_results⟩
    else ⟨"failed", some ("Nodes failed: " ++ String.intercalate ", " failed_nodes), node_results⟩

/-- One connection-processing step of the Input Merger as the spec words it
(§4.3, multiple incoming connections): look the producing parent's result up;
skip the connection when the parent did not succeed; store the parent output
under `inputA`/`inputB` when the connection is labeled `"A"`/`"B"`; otherwise
shallow-merge a mapping output, later writes overwriting earlier ones. -/
def mergeStepSpec (parent_results : List Value) (merged : List (String × Value))
    (conn : Conn) : List (String × Value) :=
  match findParentResult parent_results conn with
  | none => merged
  | some r =>
    if r.getTruthy "success" = false then merged
    else
      let parentOutput := unwrapOutput (r.getD "output" (.obj []))
      if conn.outputType = some "A" then dictSet merged "inputA" parentOutput
      else if conn.outputType = some "B" then dictSet merged "inputB" parentOutput
      else
        match parentOutput with
        | .obj fields => dictUpdate merged fields
        | _ => merged

/-- The Input Merger on two or more incoming connections as the spec words
it: fold the spec's step over the incoming connections in declaration order,
starting from an empty mapping. -/
def merge_inputs_spec (parent_results : List Value) (connections : List Conn)
    (node_id : String) : Value :=
  .obj ((connections.filter (fun c => c.toNodeId == node_id)).foldl
    (mergeStepSpec parent_results) [])

/-- The connections induce a cycle among the given node ids: some nonempty
set of ids each of which has an incoming connection from inside the set. -/
def inducesCycle (connections : List Conn) (ids : List String) : Prop :=
  ∃ S : List String, S ≠ [] ∧ (∀ s ∈ S, s ∈ ids) ∧
    ∀ s ∈ S, ∃ c ∈ connections, c.toNodeId = s ∧ c.fromNodeId ∈ S

/-- A registry whose `"t"` handler echoes its input. -/
def echoRegistry : Registry := fun t => if t == "t" then some (fun _ i => .ok i) else none

/-! ## Association-list lemmas -/

/-- The master lookup law for the Python assignment `d[k] = v`. -/
lemma dictFind?_dictSet (d : List (String × α)) (k k' : String) (v : α) :
    dictFind? (dictSet d k v) k' = if k' = k then some v else dictFind? d k' := by
  by_cases hany : d.any (fun p => p.1 == k)
  · simp only [dictSet, hany, if_true, dictFind?, List.find?_map]
    by_cases hk : k' = k
    · subst hk
      have hp : ((fun p => p.1 == k') ∘ fun p => if p.1 == k' then (k', v) else p)
          = (fun p : String × α => p.1 == k') := by
        funext q
        cases hq : (q.1 == k') with
        | true =>
          have hq' : q.1 = k' := by simpa using hq
          simp [hq']
        | false =>
          have hq' : ¬ q.1 = k' := by simpa using hq
          simp [hq']
      rw [hp]
      cases hfind : d.find? (fun p => p.1 == k') with
      | none =>
        rcases List.any_eq_true.mp hany with ⟨p, hp', hpk⟩
        exact absurd hpk (List.find?_eq_none.mp hfind p hp')
      | some q =>
        have hq : (q.1 == k') = true := by simpa using List.find?_some hfind
        have hq' : q.1 = k' := by simpa using hq
        simp [hq']
    · have hp : ((fun p => p.1 == k') ∘ fun p => if p.1 == k then (k, v) else p)
          = (fun p : String × α => p.1 == k') := by
        funext q
        cases hq : (q.1 == k) with
        | true =>
          have hq' : q.1 = k := by simpa using hq
          have h2 : ¬ k = k' := Ne.symm hk
          simp [hq', h2]
        | false =>
          have hq' : ¬ q.1 = k := by simpa using hq
          simp [hq']
      rw [hp]
      cases hfind : d.find? (fun p => p.1 == k') with
      | none => simp [hk]
      | some q =>
        have hq : (q.1 == k') = true := by simpa using List.find?_some hfind
        have hq' : q.1 = k' := by simpa using hq
        have hqk : ¬ q.1 = k := by simp [hq', hk]
        simp [hq', hqk, hk]
  · simp only [dictSet, hany, if_false, dictFind?, Bool.false_eq_true, List.find?_append]
    have hnone : d.find? (fun p => p.1 == k) = none := by
      rw [List.find?_eq_none]
      intro x hx
      exact fun hxk => hany (List.any_eq_true.mpr ⟨x, hx, hxk⟩)
    by_cases hk : k' = k
    · subst hk
      simp [hnone]
    · have : (k == k') = false := by simpa using Ne.symm hk
      simp [this, hk]

lemma dictFind?_dictSet_self (d : List (String × α)) (k : String) (v : α) :
    dictFind? (dictSet d k v) k = some v := by
  simp [dictFind?_dictSet]

lemma dictFind?_dictSet_ne (d : List (String × α)) (k k' : String) (v : α)
    (hne : k' ≠ k) : dictFind? (dictSet d k v) k' = dictFind? d k' := by
  simp [dictFind?_dictSet, hne]

/-- Looking a key up after a keyed fold of `dictSet`s whose written value is a
function of the key alone. -/
lemma dictFind?_foldl_keyed (f : String → α) (keys : List String)
    (init : List (String × α)) (k : String) :
    dictFind? (keys.foldl (fun d key => dictSet d key (f key)) init) k =
      if k ∈ keys then some (f k) else dictFind? init k := by
  induction keys generalizing init with
  | nil => simp
  | cons key rest ih =>
    simp only [List.foldl_cons]
    rw [ih (dictSet init key (f key))]
    by_cases hmem : k ∈ rest
    · simp [hmem]
    · by_cases hk : k = key
      · subst hk
        simp [hmem, dictFind?_dictSet_self]
      · simp [hmem, hk, dictFind?_dictSet_ne init key k (f key) hk]

/-- A fold of `dictSet`s keeps every key that was present and adds every key
written. -/
lemma dictFind?_foldl_isSome (ps : List (String × α)) (acc : List (String × α))
    (k : String)
    (h : (dictFind? acc k).isSome ∨ ∃ v, (k, v) ∈ ps) :
    (dictFind? (ps.foldl (fun d p => dictSet d p.1 p.2) acc) k).isSome := by
  induction ps generalizing acc with
  | nil =>
    rcases h with h | ⟨v, hv⟩
    · simpa using h
    · simp at hv
  | cons p rest ih =>
    simp only [List.foldl_cons]
    apply ih
    rcases h with h | ⟨v, hv⟩
    · left
      by_cases hk : k = p.1
      · subst hk
        rw [dictFind?_dictSet_self]
        simp
      · rwa [dictFind?_dictSet_ne _ _ _ _ hk]
    · rcases List.mem_cons.mp hv with hv | hv
      · left
        have : p.1 = k := by rw [← hv]
        subst this
        rw [dictFind?_dictSet_self]
        simp
      · right
        exact ⟨v, hv⟩

/-! ## Layer planner lemmas -/

lemma length_filter_lt_of_witness {l : List α} {p : α → Bool} {x : α}
    (hx : x ∈ l) (hpx : p x = false) : (l.filter p).length < l.length := by
  induction l with
  | nil => cases hx
  | cons h t ih =>
    rcases List.mem_cons.mp hx with rfl | hx'
    · simp only [List.filter_cons, hpx, Bool.false_eq_true, if_false]
      exact Nat.lt_succ_of_le (t.length_filter_le p)
    · cases hph : p h with
      | true =>
        simp only [List.filter_cons, hph, if_true, List.length_cons]
        exact Nat.succ_lt_succ (ih hx')
      | false =>
        simp only [List.filter_cons, hph, Bool.false_eq_true, if_false]
        exact Nat.lt_succ_of_lt (ih hx')

lemma mem_readyLayer_iff {deps : List (String × List String)}
    {processed remaining : List String} {x : String} :
    x ∈ readyLayer deps processed remaining ↔
      x ∈ remaining ∧ ∀ d ∈ dictGetD deps x [], d ∈ processed := by
  simp [readyLayer, List.mem_filter, List.all_eq_true]

lemma contains_eq_readyLayer_pred {deps : List (String × List String)}
    {processed remaining : List String} {x : String} (hx : x ∈ remaining) :
    (readyLayer deps processed remaining).contains x =
      (dictGetD deps x []).all (fun d => processed.contains d) := by
  cases hp : (dictGetD deps x []).all (fun d => processed.contains d) with
  | true =>
    have : x ∈ readyLayer deps processed remaining :=
      List.mem_filter.mpr ⟨hx, hp⟩
    simpa using this
  | false =>
    have : x ∉ readyLayer deps processed remaining := by
      intro hmem
      have := (List.mem_filter.mp hmem).2
      rw [hp] at this
      cases this
    simpa using this

lemma remainingAfter_length_lt {deps : List (String × List String)}
    {processed remaining : List String}
    (h : (readyLayer deps processed remaining).isEmpty = false) :
    (remaining.filter
        (fun nid => !((readyLayer deps processed remaining).contains nid))).length
      < remaining.length := by
  have hne : readyLayer deps processed remaining ≠ [] := by
    intro hnil
    rw [hnil] at h
    cases h
  rcases List.exists_mem_of_ne_nil _ hne with ⟨x, hxcur⟩
  have hxrem : x ∈ remaining := (mem_readyLayer_iff.mp hxcur).1
  have hpx : (!((readyLayer deps processed remaining).contains x)) = false := by
    simp [hxcur]
  exact length_filter_lt_of_witness hxrem hpx

lemma layersAux_ok_perm (deps : List (String × List String)) :
    ∀ (fuel : Nat) (processed remaining : List String) (ls : List (List String)),
      remaining.length ≤ fuel →
      layersAux deps fuel processed remaining = .ok ls →
      List.Perm ls.flatten remaining := by
  intro fuel
  induction fuel with
  | zero =>
    intro processed remaining ls hfuel heq
    have hrem : remaining = [] := List.length_eq_zero.mp (Nat.le_zero.mp hfuel)
    subst hrem
    simp [layersAux] at heq
    subst heq
    rfl
  | succ n ih =>
    intro processed remaining ls hfuel heq
    rw [layersAux] at heq
    cases hrem : remaining.isEmpty with
    | true =>
      rw [hrem] at heq
      simp at heq
      subst heq
      have : remaining = [] := List.isEmpty_iff.mp hrem
      subst this
      rfl
    | false =>
      rw [hrem] at heq
      simp only [Bool.false_eq_true, if_false] at heq
      cases hcur : (readyLayer deps processed remaining).isEmpty with
      | true =>
        rw [hcur] at heq
        simp at heq
      | false =>
        rw [hcur] at heq
        simp only [Bool.false_eq_true, if_false] at heq
        cases hrec : layersAux deps n (processed ++ readyLayer deps processed remaining)
            (remaining.filter
              (fun nid => !((readyLayer deps processed remaining).contains nid))) with
        | error e =>
          rw [hrec] at heq
          simp at heq
        | ok ls' =>
          rw [hrec] at heq
          simp only [Except.ok.injEq] at heq
          subst heq
          have hlt := remainingAfter_length_lt hcur
          have hfuel' : (remaining.filter
              (fun nid => !((readyLayer deps processed remaining).contains nid))).length ≤ n := by
            omega
          have hperm' := ih _ _ _ hfuel' hrec
          have hcongr : remaining.filter
              (fun nid => !((readyLayer deps processed remaining).contains nid)) =
              remaining.filter
                (fun x => !((dictGetD deps x []).all (fun d => processed.contains d))) :=
            List.filter_congr (fun x hx => by
              rw [contains_eq_readyLayer_pred hx])
          rw [hcongr] at hperm'
          simp only [List.flatten_cons]
          exact (List.Perm.append_left _ hperm').trans
            (List.filter_append_perm
              (fun nid => (dictGetD deps nid []).all (fun d => processed.contains d)) remaining)

lemma layersAux_ok_deps (deps : List (String × List String)) :
    ∀ (fuel : Nat) (processed remaining : List String) (ls : List (List String)),
      layersAux deps fuel processed remaining = .ok ls →
      ∀ (i : Nat) (layer : List String), ls[i]? = some layer →
        ∀ v ∈ layer, ∀ d ∈ dictGetD deps v [],
        d ∈ processed ∨ ∃ j, j < i ∧ ∃ lj : List String, ls[j]? = some lj ∧ d ∈ lj := by
  intro fuel
  induction fuel with
  | zero =>
    intro processed remaining ls heq i layer hlayer v hv d hd
    rw [layersAux] at heq
    cases hrem : remaining.isEmpty with
    | true =>
      rw [hrem] at heq
      simp at heq
      subst heq
      simp at hlayer
    | false =>
      rw [hrem] at heq
      simp at heq
  | succ n ih =>
    intro processed remaining ls heq i layer hlayer v hv d hd
    rw [layersAux] at heq
    cases hrem : remaining.isEmpty with
    | true =>
      rw [hrem] at heq
      simp at heq
      subst heq
      simp at hlayer
    | false =>
      rw [hrem] at heq
      simp only [Bool.false_eq_true, if_false] at heq
      cases hcur : (readyLayer deps processed remaining).isEmpty with
      | true =>
        rw [hcur] at heq
        simp at heq
      | false =>
        rw [hcur] at heq
        simp only [Bool.false_eq_true, if_false] at heq
        cases hrec : layersAux deps n (processed ++ readyLayer deps processed remaining)
            (remaining.filter
              (fun nid => !((readyLayer deps processed remaining).contains nid))) with
        | error e =>
          rw [hrec] at heq
          simp at heq
        | ok ls' =>
          rw [hrec] at heq
          simp only [Except.ok.injEq] at heq
          subst heq
          match i, hlayer with
          | 0, hlayer =>
            simp only [List.getElem?_cons_zero, Option.some.injEq] at hlayer
            subst hlayer
            exact Or.inl ((mem_readyLayer_iff.mp hv).2 d hd)
          | i + 1, hlayer =>
            simp only [List.getElem?_cons_succ] at hlayer
            rcases ih _ _ _ hrec i layer hlayer v hv d hd with hmem | ⟨j, hj, lj, hlj, hdlj⟩
            · rcases List.mem_append.mp hmem with hp | hc
              · exact Or.inl hp
              · exact Or.inr ⟨0, Nat.succ_pos i, readyLayer deps processed remaining, by simp, hc⟩
            · exact Or.inr ⟨j + 1, Nat.succ_lt_succ hj, lj, by simpa using hlj, hdlj⟩

lemma layersAux_blocked (deps : List (String × List String)) :
    ∀ (fuel : Nat) (processed remaining S : List String),
      S ≠ [] →
      (∀ s ∈ S, s ∈ remaining) →
      (∀ s ∈ S, s ∉ processed) →
      (∀ s ∈ S, ∃ p, p ∈ dictGetD deps s [] ∧
        (p ∈ S ∨ (p ∉ processed ∧ p ∉ remaining))) →
      layersAux deps fuel processed remaining = .error cycleMsg := by
  intro fuel
  induction fuel with
  | zero =>
    intro processed remaining S hSne hSrem hSproc hSpar
    rcases List.exists_mem_of_ne_nil _ hSne with ⟨s, hs⟩
    have hrem : remaining.isEmpty = false := by
      cases hr : remaining.isEmpty with
      | true => exact absurd (hSrem s hs) (by simp [List.isEmpty_iff.mp hr])
      | false => rfl
    rw [layersAux, hrem]
    simp
  | succ n ih =>
    intro processed remaining S hSne hSrem hSproc hSpar
    rcases List.exists_mem_of_ne_nil _ hSne with ⟨s₀, hs₀⟩
    have hrem : remaining.isEmpty = false := by
      cases hr : remaining.isEmpty with
      | true => exact absurd (hSrem s₀ hs₀) (by simp [List.isEmpty_iff.mp hr])
      | false => rfl
    have hnotcur : ∀ s ∈ S, s ∉ readyLayer deps processed remaining := by
      intro s hs hcur
      rcases hSpar s hs with ⟨p, hpdep, hp⟩
      have hpproc : p ∈ processed := (mem_readyLayer_iff.mp hcur).2 p hpdep
      rcases hp with hpS | ⟨hpnp, _⟩
      · exact hSproc p hpS hpproc
      · exact hpnp hpproc
    rw [layersAux, hrem]
    simp only [Bool.false_eq_true, if_false]
    cases hcur : (readyLayer deps processed remaining).isEmpty with
    | true => simp [hcur]
    | false =>
      simp only [Bool.false_eq_true, if_false]
      have hrec := ih (processed ++ readyLayer deps processed remaining)
        (remaining.filter (fun nid => !((readyLayer deps processed remaining).contains nid)))
        S hSne
        (by
          intro s hs
          refine List.mem_filter.mpr ⟨hSrem s hs, ?_⟩
          simp [hnotcur s hs])
        (by
          intro s hs hmem
          rcases List.mem_append.mp hmem with h | h
          · exact hSproc s hs h
          · exact hnotcur s hs h)
        (by
          intro s hs
          rcases hSpar s hs with ⟨p, hpdep, hp⟩
          refine ⟨p, hpdep, ?_⟩
          rcases hp with hpS | ⟨hpnp, hpnr⟩
          · exact Or.inl hpS
          · refine Or.inr ⟨?_, ?_⟩
            · intro hmem
              rcases List.mem_append.mp hmem with h | h
              · exact hpnp h
              · exact hpnr (mem_readyLayer_iff.mp h).1
            · intro hmem
              exact hpnr (List.mem_filter.mp hmem).1)
      rw [hrec]

/-! ## Dependency analyzer lemmas -/

lemma dictFind?_analyze (nodes : List Node) (connections : List Conn) (nid : String) :
    dictFind? (analyze_workflow_dependencies nodes connections) nid =
      if nid ∈ nodes.map Node.id then some (parentsOf connections nid) else none := by
  unfold analyze_workflow_dependencies
  rw [show nodes.foldl
        (fun deps node => dictSet deps node.id (parentsOf connections node.id)) []
      = (nodes.map Node.id).foldl
        (fun d key => dictSet d key (parentsOf connections key)) [] from
    (List.foldl_map Node.id
      (fun d key => dictSet d key (parentsOf connections key)) nodes []).symm]
  rw [dictFind?_foldl_keyed]
  cases hmem : decide (nid ∈ nodes.map Node.id) with
  | true =>
    have h := of_decide_eq_true hmem
    simp [h]
  | false =>
    have h := of_decide_eq_false hmem
    simp [h, dictFind?]

lemma dictGetD_analyze_mem {nodes : List Node} {connections : List Conn} {nid : String}
    (h : nid ∈ nodes.map Node.id) :
    dictGetD (analyze_workflow_dependencies nodes connections) nid [] =
      parentsOf connections nid := by
  rw [dictGetD, dictFind?_analyze, if_pos h]
  rfl

lemma mem_parentsOf {connections : List Conn} {c : Conn} (hc : c ∈ connections) :
    c.fromNodeId ∈ parentsOf connections c.toNodeId := by
  unfold parentsOf
  exact List.mem_map.mpr ⟨c, List.mem_filter.mpr ⟨hc, by simp⟩, rfl⟩

/-- A node id can sit in only one position of a duplicate-free layering. -/
lemma layers_pos_unique {ls : List (List String)} (hnd : ls.flatten.Nodup)
    {i j : Nat} {li lj : List String} (hi : ls[i]? = some li) (hj : ls[j]? = some lj)
    {d : String} (hdi : d ∈ li) (hdj : d ∈ lj) : i = j := by
  by_contra hne
  rcases List.getElem?_eq_some_iff.mp hi with ⟨hil, hieq⟩
  rcases List.getElem?_eq_some_iff.mp hj with ⟨hjl, hjeq⟩
  have hpair := (List.nodup_flatten.mp hnd).2
  rcases Nat.lt_or_ge i j with hlt | hge
  · have hdisj := List.pairwise_iff_getElem.mp hpair i j hil hjl hlt
    exact hdisj (hieq ▸ hdi) (hjeq ▸ hdj)
  · have hlt' : j < i := Nat.lt_of_le_of_ne hge (fun h => hne h.symm)
    have hdisj := List.pairwise_iff_getElem.mp hpair j i hjl hil hlt'
    exact hdisj (hjeq ▸ hdj) (hieq ▸ hdi)

lemma get_execution_layers_perm {nodes : List Node} {deps : List (String × List String)}
    {ls : List (List String)}
    (hok : get_execution_layers nodes deps = .ok ls) :
    List.Perm ls.flatten (nodeIds nodes) :=
  layersAux_ok_perm deps (nodeIds nodes).length [] (nodeIds nodes) ls (Nat.le_refl _) hok

/-- C1.  For every workflow graph on which the Layer Planner succeeds, the
produced layer sequence contains every node id exactly once (and no other
id), and for every connection `u→v` whose endpoints sit in layers, the layer
index of `u` is strictly below the layer index of `v`. -/
theorem layer_planner_partitions_and_orders
    (nodes : List Node) (connections : List Conn) (ls : List (List String))
    (hok : get_execution_layers nodes
      (analyze_workflow_dependencies nodes connections) = .ok ls) :
    (∀ nid : String,
      ls.flatten.count nid = if nid ∈ nodeIds nodes then 1 else 0) ∧
    (∀ c ∈ connections, ∀ (i j : Nat) (li lj : List String),
      ls[i]? = some li → ls[j]? = some lj →
      c.fromNodeId ∈ li → c.toNodeId ∈ lj → i < j) := by
  have hperm := get_execution_layers_perm hok
  have hnodup : ls.flatten.Nodup := hperm.nodup_iff.mpr (List.nodup_dedup _)
  constructor
  · intro nid
    rw [hperm.count_eq nid]
    by_cases hmem : nid ∈ nodeIds nodes
    · rw [if_pos hmem]
      exact List.count_eq_one_of_mem (List.nodup_dedup _) hmem
    · rw [if_neg hmem]
      exact List.count_eq_zero.mpr hmem
  · intro c hc i j li lj hi hj hfrom hto
    have hvmem : c.toNodeId ∈ nodeIds nodes := by
      have : c.toNodeId ∈ ls.flatten :=
        List.mem_flatten.mpr ⟨lj, List.getElem?_mem hj, hto⟩
      exact hperm.mem_iff.mp this
    have hvid : c.toNodeId ∈ nodes.map Node.id := List.mem_dedup.mp hvmem
    have hdep : c.fromNodeId ∈ dictGetD
        (analyze_workflow_dependencies nodes connections) c.toNodeId [] := by
      rw [dictGetD_analyze_mem hvid]
      exact mem_parentsOf hc
    rcases layersAux_ok_deps (analyze_workflow_dependencies nodes connections)
        (nodeIds nodes).length [] (nodeIds nodes) ls hok j lj hj
        c.toNodeId hto c.fromNodeId hdep with hfalse | ⟨j', hj', lj', hlj', hdlj'⟩
    · cases hfalse
    · have : i = j' := layers_pos_unique hnodup hi hlj' hfrom hdlj'
      omega

/-- C1 witness: the three-node chain `A→B→C`. -/
theorem layer_planner_partitions_and_orders_witness :
    (get_execution_layers
      [⟨"A", "t", none⟩, ⟨"B", "t", none⟩, ⟨"C", "t", none⟩]
      (analyze_workflow_dependencies
        [⟨"A", "t", none⟩, ⟨"B", "t", none⟩, ⟨"C", "t", none⟩]
        [⟨"A", "B", none, none⟩, ⟨"B", "C", none, none⟩]) =
      .ok [["A"], ["B"], ["C"]]) ∧
    ([["A"], ["B"], ["C"]] : List (List String)).flatten.count "B" =
      (if "B" ∈ nodeIds [⟨"A", "t", none⟩, ⟨"B", "t", none⟩, ⟨"C", "t", none⟩] then 1 else 0) ∧
    (0 : Nat) < 1 := by
  refine ⟨rfl, ?_, ?_⟩
  · exact (layer_planner_partitions_and_orders
      [⟨"A", "t", none⟩, ⟨"B", "t", none⟩, ⟨"C", "t", none⟩]
      [⟨"A", "B", none, none⟩, ⟨"B", "C", none, none⟩]
      [["A"], ["B"], ["C"]] rfl).1 "B"
  · exact (layer_planner_partitions_and_orders
      [⟨"A", "t", none⟩, ⟨"B", "t", none⟩, ⟨"C", "t", none⟩]
      [⟨"A", "B", none, none⟩, ⟨"B", "C", none, none⟩]
      [["A"], ["B"], ["C"]] rfl).2 ⟨"A", "B", none, none⟩ (by simp) 0 1 ["A"] ["B"]
      rfl rfl (by simp) (by simp)

/-- C2.  For every workflow graph whose connections induce a cycle among its
node ids, planning fails with the cycle-detection error, and the run is
marked failed with that error while zero nodes execute (the result map is
empty). -/
theorem cycle_detected_before_any_execution
    (registry : Registry) (durations : String → Int)
    (nodes : List Node) (connections : List Conn) (inputs : Value)
    (hcyc : inducesCycle connections (nodeIds nodes)) :
    get_execution_layers nodes (analyze_workflow_dependencies nodes connections)
      = .error cycleMsg ∧
    workflow_flow_optimized registry durations nodes connections inputs =
      ⟨"failed", some cycleMsg, []⟩ := by
  rcases hcyc with ⟨S, hSne, hSids, hScyc⟩
  have herr : get_execution_layers nodes
      (analyze_workflow_dependencies nodes connections) = .error cycleMsg := by
    apply layersAux_blocked _ _ _ _ S hSne hSids
      (by intro s hs h; cases h)
    intro s hs
    rcases hScyc s hs with ⟨c, hc, hto, hfrom⟩
    refine ⟨c.fromNodeId, ?_, Or.inl hfrom⟩
    have hsid : s ∈ nodes.map Node.id := List.mem_dedup.mp (hSids s hs)
    rw [dictGetD_analyze_mem hsid, ← hto]
    exact mem_parentsOf hc
  refine ⟨herr, ?_⟩
  simp [workflow_flow_optimized, herr]

/-- C2 witness: the two-node cycle `A→B, B→A` with an ordinary registry. -/
theorem cycle_detected_before_any_execution_witness :
    inducesCycle [⟨"A", "B", none, none⟩, ⟨"B", "A", none, none⟩]
      (nodeIds [⟨"A", "t", none⟩, ⟨"B", "t", none⟩]) ∧
    workflow_flow_optimized (fun _ => none) (fun _ => 0)
      [⟨"A", "t", none⟩, ⟨"B", "t", none⟩]
      [⟨"A", "B", none, none⟩, ⟨"B", "A", none, none⟩] (.obj []) =
      ⟨"failed", some cycleMsg, []⟩ := by
  have hcyc : inducesCycle [⟨"A", "B", none, none⟩, ⟨"B", "A", none, none⟩]
      (nodeIds [⟨"A", "t", none⟩, ⟨"B", "t", none⟩]) :=
    ⟨["A", "B"], by decide, by decide, by decide⟩
  exact ⟨hcyc, (cycle_detected_before_any_execution (fun _ => none) (fun _ => 0)
    [⟨"A", "t", none⟩, ⟨"B", "t", none⟩]
    [⟨"A", "B", none, none⟩, ⟨"B", "A", none, none⟩] (.obj []) hcyc).2⟩

/-- C4.  The Branch Filter: with no `conditionResult` every outgoing
connection is kept; with one present, a connection is kept exactly when its
`fromPort` matches the branch outcome, or is neither `"true"` nor `"false"`
(an unlabeled default edge always fires). -/
theorem branch_filter_selection
    (node_id : String) (result : Value) (connections : List Conn) :
    (result.get? "conditionResult" = none →
      branchFilter node_id result connections =
        connections.filter (fun c => c.fromNodeId == node_id)) ∧
    (∀ b : Bool, result.get? "conditionResult" = some (.bool b) →
      ∀ c ∈ connections, (c ∈ branchFilter node_id result connections ↔
        c.fromNodeId = node_id ∧
          ((b = true ∧ c.fromPort.getD "" = "true") ∨
           (b = false ∧ c.fromPort.getD "" = "false") ∨
           (c.fromPort.getD "" ≠ "true" ∧ c.fromPort.getD "" ≠ "false")))) := by
  constructor
  · intro hnone
    unfold branchFilter
    rw [hnone]
  · intro b hsome c hc
    unfold branchFilter
    rw [hsome]
    simp only [List.mem_filter, Value.truthy]
    cases b with
    | true => simp [hc]
    | false => simp [hc]

/-- C4 witness: `conditionResult=true` with a `"true"`-port and a
`"false"`-port edge selects exactly the `"true"`-port edge. -/
theorem branch_filter_selection_witness :
    ((Value.obj [("conditionResult", .bool true)]).get? "conditionResult" =
      some (.bool true)) ∧
    ((⟨"X", "T", some "true", none⟩ : Conn) ∈
        branchFilter "X" (.obj [("conditionResult", .bool true)])
          [⟨"X", "T", some "true", none⟩, ⟨"X", "F", some "false", none⟩] ↔
      ("X" : String) = "X" ∧
        ((true = true ∧ (some "true" : Option String).getD "" = "true") ∨
         (true = false ∧ (some "true" : Option String).getD "" = "false") ∨
         ((some "true" : Option String).getD "" ≠ "true" ∧
          (some "true" : Option String).getD "" ≠ "false"))) := by
  refine ⟨rfl, ?_⟩
  exact (branch_filter_selection "X" (.obj [("conditionResult", .bool true)])
    [⟨"X", "T", some "true", none⟩, ⟨"X", "F", some "false", none⟩]).2
    true rfl ⟨"X", "T", some "true", none⟩ (by simp)

/-- C5.  A node with exactly one incoming connection receives its parent's
`outputData` unchanged, whatever its shape — the output payload itself, or
the `outputData` field when the handler returned an `{"outputData": ...}`
wrapper (the source's unwrap, shared with the multi-input path) — provided
the parent's result is present and succeeded (the failure results the engine
produces carry no output payload). -/
theorem single_parent_passthrough
    (parent_results : List Value) (connections : List Conn) (node_id : String)
    (conn : Conn) (r : Value)
    (hin : connections.filter (fun c => c.toNodeId == node_id) = [conn])
    (hfind : findParentResult parent_results conn = some r)
    (hsucc : r.getTruthy "success" = true) :
    merge_inputs parent_results connections node_id =
      unwrapOutput (r.getD "output" (.obj [])) := by
  unfold merge_inputs
  rw [hin]
  simp only [hfind, hsucc, if_true]

/-- C5 witness: a successful parent whose handler returned the wrapper
`{"outputData": {"x": 1}}` — the shape the repo's handlers produce — has its
`outputData = {"x": 1}` passed through exactly. -/
theorem single_parent_passthrough_witness :
    ((([⟨"B", "C", none, none⟩] : List Conn).filter
        (fun c => c.toNodeId == "C")) = [⟨"B", "C", none, none⟩]) ∧
    (findParentResult
        [Value.obj [("success", .bool true), ("nodeId", .str "B"),
          ("output", .obj [("outputData", .obj [("x", .num 1)])]),
          ("duration", .num 0)]]
        ⟨"B", "C", none, none⟩ =
      some (.obj [("success", .bool true), ("nodeId", .str "B"),
        ("output", .obj [("outputData", .obj [("x", .num 1)])]),
        ("duration", .num 0)])) ∧
    ((Value.obj [("success", .bool true), ("nodeId", .str "B"),
        ("output", .obj [("outputData", .obj [("x", .num 1)])]),
        ("duration", .num 0)]).getTruthy "success" = true) ∧
    merge_inputs
        [Value.obj [("success", .bool true), ("nodeId", .str "B"),
          ("output", .obj [("outputData", .obj [("x", .num 1)])]),
          ("duration", .num 0)]]
        [⟨"B", "C", none, none⟩] "C" =
      unwrapOutput ((Value.obj [("success", .bool true), ("nodeId", .str "B"),
        ("output", .obj [("outputData", .obj [("x", .num 1)])]),
        ("duration", .num 0)]).getD "output" (.obj [])) ∧
    merge_inputs
        [Value.obj [("success", .bool true), ("nodeId", .str "B"),
          ("output", .obj [("outputData", .obj [("x", .num 1)])]),
          ("duration", .num 0)]]
        [⟨"B", "C", none, none⟩] "C" = .obj [("x", .num 1)] := by
  refine ⟨rfl, rfl, rfl, ?_, rfl⟩
  exact single_parent_passthrough
    [Value.obj [("success", .bool true), ("nodeId", .str "B"),
      ("output", .obj [("outputData", .obj [("x", .num 1)])]),
      ("duration", .num 0)]]
    [⟨"B", "C", none, none⟩] "C" ⟨"B", "C", none, none⟩
    (.obj [("success", .bool true), ("nodeId", .str "B"),
      ("output", .obj [("outputData", .obj [("x", .num 1)])]),
      ("duration", .num 0)])
    rfl rfl rfl

lemma mergeStep_eq_mergeStepSpec (parent_results : List Value) :
    mergeStep parent_results = mergeStepSpec parent_results := by
  funext merged conn
  unfold mergeStep mergeStepSpec
  cases hfind : findParentResult parent_results conn with
  | none => rfl
  | some r =>
    cases hs : r.getTruthy "success" with
    | false => simp [hs]
    | true =>
      simp only [hs]
      simp only [if_true, Bool.true_eq_false, if_false]
      cases hot : conn.outputType with
      | none => simp
      | some s =>
        by_cases hA : s = "A"
        · simp [hA]
        · by_cases hB : s = "B"
          · simp [hA, hB]
          · simp [hA, hB]

/-- C6.  On two or more incoming connections, `merge_inputs` computes exactly
the mapping the spec describes: connections processed in declaration order,
failed parents skipped, `"A"`/`"B"` labels stored under `inputA`/`inputB`,
unlabeled mapping outputs shallow-merged with later writes winning. -/
theorem multi_input_merge_matches_spec
    (parent_results : List Value) (connections : List Conn) (node_id : String)
    (h2 : 2 ≤ (connections.filter (fun c => c.toNodeId == node_id)).length) :
    merge_inputs parent_results connections node_id =
      merge_inputs_spec parent_results connections node_id := by
  unfold merge_inputs merge_inputs_spec
  rw [mergeStep_eq_mergeStepSpec]
  rcases hfil : connections.filter (fun c => c.toNodeId == node_id) with _ | ⟨c1, _ | ⟨c2, rest⟩⟩
  · rw [hfil] at h2
    simp at h2
  · rw [hfil] at h2
    simp at h2
  · simp [hfil]

/-- C6 witness: the spec's join example, labels `"A"` and `"B"` carrying
`{"v":1}` and `{"v":2}`. -/
theorem multi_input_merge_matches_spec_witness :
    (2 ≤ (([⟨"P", "J", none, some "A"⟩, ⟨"Q", "J", none, some "B"⟩] : List Conn).filter
      (fun c => c.toNodeId == "J")).length) ∧
    merge_inputs
        [Value.obj [("success", .bool true), ("nodeId", .str "P"),
          ("output", .obj [("v", .num 1)]), ("duration", .num 0)],
         Value.obj [("success", .bool true), ("nodeId", .str "Q"),
          ("output", .obj [("v", .num 2)]), ("duration", .num 0)]]
        [⟨"P", "J", none, some "A"⟩, ⟨"Q", "J", none, some "B"⟩] "J" =
      merge_inputs_spec
        [Value.obj [("success", .bool true), ("nodeId", .str "P"),
          ("output", .obj [("v", .num 1)]), ("duration", .num 0)],
         Value.obj [("success", .bool true), ("nodeId", .str "Q"),
          ("output", .obj [("v", .num 2)]), ("duration", .num 0)]]
        [⟨"P", "J", none, some "A"⟩, ⟨"Q", "J", none, some "B"⟩] "J" ∧
    merge_inputs
        [Value.obj [("success", .bool true), ("nodeId", .str "P"),
          ("output", .obj [("v", .num 1)]), ("duration", .num 0)],
         Value.obj [("success", .bool true), ("nodeId", .str "Q"),
          ("output", .obj [("v", .num 2)]), ("duration", .num 0)]]
        [⟨"P", "J", none, some "A"⟩, ⟨"Q", "J", none, some "B"⟩] "J" =
      .obj [("inputA", .obj [("v", .num 1)]), ("inputB", .obj [("v", .num 2)])] := by
  refine ⟨by decide, ?_, rfl⟩
  exact multi_input_merge_matches_spec
    [Value.obj [("success", .bool true), ("nodeId", .str "P"),
      ("output", .obj [("v", .num 1)]), ("duration", .num 0)],
     Value.obj [("success", .bool true), ("nodeId", .str "Q"),
      ("output", .obj [("v", .num 2)]), ("duration", .num 0)]]
    [⟨"P", "J", none, some "A"⟩, ⟨"Q", "J", none, some "B"⟩] "J" (by decide)

/-- C10.  `execute_node_task` always returns a structured result carrying
`success`, `nodeId` and `duration`, writes a `running` log entry first and a
terminal (`completed` or `failed`) entry last, and converts every handler
exception — including the unknown-node-type error — into a
`success=False` result carrying the exception message instead of
propagating it. -/
theorem node_task_never_raises_and_is_structured
    (registry : Registry) (node : Node) (input_data : Value) (duration : Int) :
    ((execute_node_task registry node input_data duration).1.get? "success").isSome ∧
    (execute_node_task registry node input_data duration).1.get? "nodeId" =
      some (.str node.id) ∧
    (execute_node_task registry node input_data duration).1.get? "duration" =
      some (.num duration) ∧
    (execute_node_task registry node input_data duration).2.head? =
      some ⟨node.id, "running", none⟩ ∧
    (∃ st e, (execute_node_task registry node input_data duration).2.getLast? =
      some ⟨node.id, st, e⟩ ∧ (st = "completed" ∨ st = "failed")) ∧
    (∀ h e, registry node.type = some h → h node input_data = .error e →
      (execute_node_task registry node input_data duration).1.get? "success" =
          some (.bool false) ∧
        (execute_node_task registry node input_data duration).1.get? "error" =
          some (.str e)) ∧
    (registry node.type = none →
      (execute_node_task registry node input_data duration).1.get? "success" =
          some (.bool false) ∧
        (execute_node_task registry node input_data duration).1.get? "error" =
          some (.str (noHandlerMsg node.type))) := by
  cases hreg : registry node.type with
  | none =>
    refine ⟨?_, ?_, ?_, ?_, ?_, ?_, ?_⟩ <;>
      simp [execute_node_task, hreg, failResult, Value.get?, dictFind?]
  | some h =>
    cases hh : h node input_data with
    | error e =>
      refine ⟨?_, ?_, ?_, ?_, ?_, ?_, ?_⟩ <;>
        simp [execute_node_task, hreg, hh, failResult, Value.get?, dictFind?]
      intro h1 e1 hh1 herr
      subst hh1
      rw [hh] at herr
      exact (Except.error.injEq _ _).mp herr
    | ok out =>
      refine ⟨?_, ?_, ?_, ?_, ?_, ?_, ?_⟩ <;>
        simp [execute_node_task, hreg, hh, okResult, Value.get?, dictFind?]
      intro h1 e hh1 herr
      subst hh1
      rw [hh] at herr
      cases herr

/-- C10 witness: a node of unregistered type `"x"`, duration 3. -/
theorem node_task_never_raises_and_is_structured_witness :
    ((execute_node_task (fun _ => none) ⟨"N", "x", none⟩ (.obj []) 3).1.get?
        "success").isSome ∧
    (execute_node_task (fun _ => none) ⟨"N", "x", none⟩ (.obj []) 3).1.get? "nodeId" =
      some (.str "N") ∧
    (execute_node_task (fun _ => none) ⟨"N", "x", none⟩ (.obj []) 3).1.get? "duration" =
      some (.num 3) ∧
    (execute_node_task (fun _ => none) ⟨"N", "x", none⟩ (.obj []) 3).2.head? =
      some ⟨"N", "running", none⟩ ∧
    (∃ st e, (execute_node_task (fun _ => none) ⟨"N", "x", none⟩ (.obj []) 3).2.getLast? =
      some ⟨"N", st, e⟩ ∧ (st = "completed" ∨ st = "failed")) ∧
    (∀ h e, (fun _ => none : Registry) "x" = some h →
      h ⟨"N", "x", none⟩ (.obj []) = .error e →
      (execute_node_task (fun _ => none) ⟨"N", "x", none⟩ (.obj []) 3).1.get? "success" =
          some (.bool false) ∧
        (execute_node_task (fun _ => none) ⟨"N", "x", none⟩ (.obj []) 3).1.get? "error" =
          some (.str e)) ∧
    ((fun _ => none : Registry) "x" = none →
      (execute_node_task (fun _ => none) ⟨"N", "x", none⟩ (.obj []) 3).1.get? "success" =
          some (.bool false) ∧
        (execute_node_task (fun _ => none) ⟨"N", "x", none⟩ (.obj []) 3).1.get? "error" =
          some (.str (noHandlerMsg "x"))) :=
  node_task_never_raises_and_is_structured (fun _ => none) ⟨"N", "x", none⟩ (.obj []) 3

/-- C8.  In the layered engine a registry miss fails the node immediately
with the no-handler error (no silent pass-through): the task returns a
`success=False` result carrying the message after logging a terminal
`failed` entry, and the failure is not fatal — a one-node run with that node
still reaches the final aggregation, terminating `failed` with the node
listed. -/
theorem unknown_node_type_fails_node_not_run
    (registry : Registry) (node : Node) (input_data : Value) (duration : Int)
    (durations : String → Int) (inputs : Value)
    (hmiss : registry node.type = none) :
    (execute_node_task registry node input_data duration).1 =
      failResult node.id (noHandlerMsg node.type) duration ∧
    (execute_node_task registry node input_data duration).2 =
      [⟨node.id, "running", none⟩,
       ⟨node.id, "failed", some (noHandlerMsg node.type)⟩] ∧
    workflow_flow_optimized registry durations [node] [] inputs =
      ⟨"failed",
       some ("Nodes failed: " ++ String.intercalate ", " [node.id]),
       [(node.id, failResult node.id (noHandlerMsg node.type) (durations node.id))]⟩ := by
  refine ⟨by simp [execute_node_task, hmiss], by simp [execute_node_task, hmiss], ?_⟩
  have hlayers : get_execution_layers [node]
      (analyze_workflow_dependencies [node] []) = .ok [[node.id]] := by
    simp [get_execution_layers, nodeIds, layersAux, readyLayer,
      analyze_workflow_dependencies, parentsOf, dictGetD, dictFind?, dictSet]
  simp only [workflow_flow_optimized]
  rw [hlayers]
  simp [runLayer, merge_inputs, Value.truthy,
    execute_node_task, hmiss, failedNodes, Value.getTruthy, Value.getD, Value.get?,
    dictFind?, dictSet, failResult, dictGetD, analyze_workflow_dependencies,
    parentsOf]

/-- C8 witness: an unregistered `"mystery"` node. -/
theorem unknown_node_type_fails_node_not_run_witness :
    ((fun _ => none : Registry) "mystery" = none) ∧
    workflow_flow_optimized (fun _ => none) (fun _ => 0)
        [⟨"A", "mystery", none⟩] [] (.obj []) =
      ⟨"failed",
       some ("Nodes failed: " ++ String.intercalate ", " ["A"]),
       [("A", failResult "A" (noHandlerMsg "mystery") 0)]⟩ :=
  ⟨rfl, (unknown_node_type_fails_node_not_run (fun _ => none) ⟨"A", "mystery", none⟩
    (.obj []) 0 (fun _ => 0) (.obj []) rfl).2.2⟩

/-! ## Run coordinator lemmas -/

lemma workflow_flow_optimized_ok
    {registry : Registry} {durations : String → Int}
    {nodes : List Node} {connections : List Conn} {inputs : Value}
    {ls : List (List String)}
    (hok : get_execution_layers nodes
      (analyze_workflow_dependencies nodes connections) = .ok ls) :
    workflow_flow_optimized registry durations nodes connections inputs =
      (let node_results := (ls.enum).foldl
        (fun acc p => runLayer registry durations nodes connections
          (analyze_workflow_dependencies nodes connections) inputs p.1 acc p.2) []
      if (failedNodes node_results).isEmpty then
        ⟨"completed", none, node_results⟩
      else
        ⟨"failed", some ("Nodes failed: " ++
          String.intercalate ", " (failedNodes node_results)), node_results⟩) := by
  simp only [workflow_flow_optimized]
  rw [hok]

lemma dictFind?_runLayer_isSome
    {registry : Registry} {durations : String → Int} {nodes : List Node}
    {connections : List Conn} {deps : List (String × List String)} {inputs : Value}
    {layer_idx : Nat} {acc : List (String × Value)} {layer : List String} {nid : String}
    (h : (dictFind? acc nid).isSome ∨ (nid ∈ nodes.map Node.id ∧ nid ∈ layer)) :
    (dictFind? (runLayer registry durations nodes connections deps inputs
      layer_idx acc layer) nid).isSome := by
  unfold runLayer
  apply dictFind?_foldl_isSome
  rcases h with hsome | ⟨hid, hmem⟩
  · exact Or.inl hsome
  · right
    rcases List.mem_map.mp hid with ⟨node, hnode, hnid⟩
    have hfind : (nodes.find? (fun n => n.id == nid)).isSome :=
      List.find?_isSome.mpr ⟨node, hnode, by simp [hnid]⟩
    rcases Option.isSome_iff_exists.mp hfind with ⟨node', hnode'⟩
    exact ⟨_, List.mem_filterMap.mpr ⟨nid, hmem, by rw [hnode']; rfl⟩⟩

lemma runLayers_covers
    {registry : Registry} {durations : String → Int} {nodes : List Node}
    {connections : List Conn} {deps : List (String × List String)} {inputs : Value} :
    ∀ (layers : List (Nat × List String)) (acc : List (String × Value)) (nid : String),
      ((dictFind? acc nid).isSome ∨
        (nid ∈ nodes.map Node.id ∧ ∃ p ∈ layers, nid ∈ p.2)) →
      (dictFind? (layers.foldl
        (fun acc p => runLayer registry durations nodes connections deps inputs
          p.1 acc p.2) acc) nid).isSome := by
  intro layers
  induction layers with
  | nil =>
    intro acc nid h
    rcases h with hsome | ⟨_, p, hp, _⟩
    · simpa using hsome
    · simp at hp
  | cons q rest ih =>
    intro acc nid h
    simp only [List.foldl_cons]
    apply ih
    rcases h with hsome | ⟨hid, p, hp, hnid⟩
    · exact Or.inl (dictFind?_runLayer_isSome (Or.inl hsome))
    · rcases List.mem_cons.mp hp with rfl | hp'
      · exact Or.inl (dictFind?_runLayer_isSome (Or.inr ⟨hid, hnid⟩))
      · exact Or.inr ⟨hid, p, hp', hnid⟩

lemma failedNodes_isEmpty_iff (node_results : List (String × Value)) :
    (failedNodes node_results).isEmpty = true ↔
      ∀ p ∈ node_results, p.2.getTruthy "success" = true := by
  unfold failedNodes
  rw [List.isEmpty_iff, List.map_eq_nil_iff, List.filter_eq_nil_iff]
  constructor
  · intro h p hp
    have := h p hp
    simpa using this
  · intro h p hp
    simp [h p hp]

/-- C7.  Whenever planning succeeds, the run executes every layer to
completion — each node id of the graph ends up with a recorded result, with
no hypothesis on any handler succeeding — and afterwards the run is marked
`failed` exactly when some node result has `success=False`, its error
naming every failed node id; otherwise it is marked `completed`. -/
theorem failures_aggregate_after_all_layers_run
    (registry : Registry) (durations : String → Int)
    (nodes : List Node) (connections : List Conn) (inputs : Value)
    (ls : List (List String))
    (hok : get_execution_layers nodes
      (analyze_workflow_dependencies nodes connections) = .ok ls) :
    ((workflow_flow_optimized registry durations nodes connections inputs).status =
        "completed" ∨
      (workflow_flow_optimized registry durations nodes connections inputs).status =
        "failed") ∧
    ((workflow_flow_optimized registry durations nodes connections inputs).status =
        "failed" ↔
      ∃ p ∈ (workflow_flow_optimized registry durations nodes connections
        inputs).nodeResults, p.2.getTruthy "success" = false) ∧
    ((workflow_flow_optimized registry durations nodes connections inputs).status =
        "failed" →
      (workflow_flow_optimized registry durations nodes connections inputs).error =
        some ("Nodes failed: " ++ String.intercalate ", "
          (failedNodes (workflow_flow_optimized registry durations nodes connections
            inputs).nodeResults))) ∧
    (∀ nid ∈ nodeIds nodes,
      (dictFind? (workflow_flow_optimized registry durations nodes connections
        inputs).nodeResults nid).isSome) := by
  rw [workflow_flow_optimized_ok hok]
  have hperm := get_execution_layers_perm hok
  cases hemp : (failedNodes ((ls.enum).foldl
      (fun acc p => runLayer registry durations nodes connections
        (analyze_workflow_dependencies nodes connections) inputs p.1 acc p.2) [])).isEmpty with
  | true =>
    simp only [hemp, if_true]
    refine ⟨Or.inl trivial, ?_, ?_, ?_⟩
    · constructor
      · intro hcon
        first
        | exact hcon.elim
        | exact absurd hcon (by decide)
      · rintro ⟨p, hp, hfail⟩
        have := (failedNodes_isEmpty_iff _).mp hemp p hp
        rw [this] at hfail
        cases hfail
    · intro hcon
      first
      | exact hcon.elim
      | exact absurd hcon (by decide)
    · intro nid hnid
      apply runLayers_covers
      right
      refine ⟨List.mem_dedup.mp hnid, ?_⟩
      have hfl : nid ∈ ls.flatten := hperm.mem_iff.mpr hnid
      rcases List.mem_flatten.mp hfl with ⟨l, hl, hnidl⟩
      rcases List.mem_iff_getElem?.mp hl with ⟨i, hi⟩
      exact ⟨(i, l), List.mk_mem_enum_iff_getElem?.mpr hi, hnidl⟩
  | false =>
    simp only [hemp, Bool.false_eq_true, if_false]
    refine ⟨Or.inr trivial, ?_, fun _ => trivial, ?_⟩
    · constructor
      · intro _
        have hne : ¬ ∀ p ∈ ((ls.enum).foldl
            (fun acc p => runLayer registry durations nodes connections
              (analyze_workflow_dependencies nodes connections) inputs p.1 acc p.2) []),
            p.2.getTruthy "success" = true := by
          rw [← failedNodes_isEmpty_iff]
          simp [hemp]
        push_neg at hne
        rcases hne with ⟨p, hp, hfail⟩
        exact ⟨p, hp, by simpa using hfail⟩
      · intro _
        trivial
    · intro nid hnid
      apply runLayers_covers
      right
      refine ⟨List.mem_dedup.mp hnid, ?_⟩
      have hfl : nid ∈ ls.flatten := hperm.mem_iff.mpr hnid
      rcases List.mem_flatten.mp hfl with ⟨l, hl, hnidl⟩
      rcases List.mem_iff_getElem?.mp hl with ⟨i, hi⟩
      exact ⟨(i, l), List.mk_mem_enum_iff_getElem?.mpr hi, hnidl⟩

/-- C7 witness: a two-branch graph whose `"bad"`-typed branch node has no
handler while the `"t"` branch succeeds. -/
theorem failures_aggregate_after_all_layers_run_witness :
    (get_execution_layers
      [⟨"R", "t", none⟩, ⟨"G", "t", none⟩, ⟨"B", "bad", none⟩]
      (analyze_workflow_dependencies
        [⟨"R", "t", none⟩, ⟨"G", "t", none⟩, ⟨"B", "bad", none⟩]
        [⟨"R", "G", none, none⟩, ⟨"R", "B", none, none⟩]) =
      .ok [["R"], ["G", "B"]]) ∧
    ((workflow_flow_optimized
        (fun t => if t == "t" then some (fun _ i => .ok i) else none) (fun _ => 0)
        [⟨"R", "t", none⟩, ⟨"G", "t", none⟩, ⟨"B", "bad", none⟩]
        [⟨"R", "G", none, none⟩, ⟨"R", "B", none, none⟩] (.obj [])).status =
      "failed" ↔
      ∃ p ∈ (workflow_flow_optimized
        (fun t => if t == "t" then some (fun _ i => .ok i) else none) (fun _ => 0)
        [⟨"R", "t", none⟩, ⟨"G", "t", none⟩, ⟨"B", "bad", none⟩]
        [⟨"R", "G", none, none⟩, ⟨"R", "B", none, none⟩] (.obj [])).nodeResults,
        p.2.getTruthy "success" = false) ∧
    (∀ nid ∈ nodeIds [⟨"R", "t", none⟩, ⟨"G", "t", none⟩, ⟨"B", "bad", none⟩],
      (dictFind? (workflow_flow_optimized
        (fun t => if t == "t" then some (fun _ i => .ok i) else none) (fun _ => 0)
        [⟨"R", "t", none⟩, ⟨"G", "t", none⟩, ⟨"B", "bad", none⟩]
        [⟨"R", "G", none, none⟩, ⟨"R", "B", none, none⟩] (.obj [])).nodeResults
        nid).isSome) := by
  refine ⟨rfl, ?_, ?_⟩
  · exact (failures_aggregate_after_all_layers_run
      (fun t => if t == "t" then some (fun _ i => .ok i) else none) (fun _ => 0)
      [⟨"R", "t", none⟩, ⟨"G", "t", none⟩, ⟨"B", "bad", none⟩]
      [⟨"R", "G", none, none⟩, ⟨"R", "B", none, none⟩] (.obj [])
      [["R"], ["G", "B"]] rfl).2.1
  · exact (failures_aggregate_after_all_layers_run
      (fun t => if t == "t" then some (fun _ i => .ok i) else none) (fun _ => 0)
      [⟨"R", "t", none⟩, ⟨"G", "t", none⟩, ⟨"B", "bad", none⟩]
      [⟨"R", "G", none, none⟩, ⟨"R", "B", none, none⟩] (.obj [])
      [["R"], ["G", "B"]] rfl).2.2.2

/-- C3.  The layered coordinator takes no cancellation input at all: its
layer loop never consults the execution's cancellation flag.  On the
two-layer chain `A→B` it dispatches the second layer's node unconditionally
and terminally marks the run `completed` — overwriting any externally set
`cancelled` status — so requesting cancellation during layer 0 cannot stop
layer 1 from being dispatched. -/
theorem cancellation_never_checked_between_layers :
    workflow_flow_optimized echoRegistry (fun _ => 0)
      [⟨"A", "t", none⟩, ⟨"B", "t", none⟩] [⟨"A", "B", none, none⟩]
      (.obj [("in", .num 7)]) =
    ⟨"completed", none,
      [("A", okResult "A" (.obj [("in", .num 7)]) 0),
       ("B", okResult "B" (.obj [("in", .num 7)]) 0)]⟩ := rfl

/-- C9 counterexample: a connection whose `fromNodeId` `"X"` names no node is
not rejected — `analyze_workflow_dependencies` returns a dependency map
recording the unknown id, with no failure of any kind. -/
theorem analyzer_accepts_unknown_node_id :
    analyze_workflow_dependencies [⟨"A", "t", none⟩] [⟨"X", "A", none, none⟩] =
      [("A", ["X"])] := rfl

/-- C9 amended: the Dependency Analyzer is a pure total function with no
failure modes at all — it maps every declared node id to the `fromNodeId`s
of its incoming connections, unknown ids included; a connection from an
unknown node id instead surfaces later, when the Layer Planner fails with
the cycle-detection error because the dangling parent can never be
processed. -/
theorem analyzer_total_unknown_parent_fails_planning
    (nodes : List Node) (connections : List Conn) :
    (∀ nid ∈ nodes.map Node.id,
      dictFind? (analyze_workflow_dependencies nodes connections) nid =
        some (parentsOf connections nid)) ∧
    ((∃ c ∈ connections, c.toNodeId ∈ nodeIds nodes ∧ c.fromNodeId ∉ nodeIds nodes) →
      get_execution_layers nodes (analyze_workflow_dependencies nodes connections) =
        .error cycleMsg) := by
  constructor
  · intro nid hnid
    rw [dictFind?_analyze, if_pos hnid]
  · rintro ⟨c, hc, hto, hfrom⟩
    apply layersAux_blocked _ _ _ _ [c.toNodeId] (by simp) (by simpa using hto)
      (by simp)
    intro s hs
    have hs' : s = c.toNodeId := by simpa using hs
    subst hs'
    refine ⟨c.fromNodeId, ?_, Or.inr ⟨by simp, hfrom⟩⟩
    rw [dictGetD_analyze_mem (List.mem_dedup.mp hto)]
    exact mem_parentsOf hc

/-- C9 amended witness: node `A` with a connection from the unknown id `X`. -/
theorem analyzer_total_unknown_parent_fails_planning_witness :
    (dictFind? (analyze_workflow_dependencies [⟨"A", "t", none⟩]
        [⟨"X", "A", none, none⟩]) "A" =
      some (parentsOf [⟨"X", "A", none, none⟩] "A")) ∧
    get_execution_layers [⟨"A", "t", none⟩]
        (analyze_workflow_dependencies [⟨"A", "t", none⟩] [⟨"X", "A", none, none⟩]) =
      .error cycleMsg := by
  refine ⟨?_, ?_⟩
  · exact (analyzer_total_unknown_parent_fails_planning [⟨"A", "t", none⟩]
      [⟨"X", "A", none, none⟩]).1 "A" (by simp)
  · exact (analyzer_total_unknown_parent_fails_planning [⟨"A", "t", none⟩]
      [⟨"X", "A", none, none⟩]).2 ⟨⟨"X", "A", none, none⟩, by simp, by decide, by decide⟩
